import Mathlib

/-!
A shallow embedding of the job/batch lifecycle engine of the
mcp-nano-banana MCP server (`src/index.ts`), together with proofs of the
specification's claims about it.

Modelling conventions:
* The two `Map`s (`jobs`, `batchJobs`) are modelled as partial functions
  `String → Option _`; no verified property depends on iteration order.
* Timestamps (`new Date()`) are opaque `Nat` values passed in by the caller.
* Generated identifiers (`generateJobId`, `generateBatchId`) are external
  inputs, passed as parameters.
* The external Gemini call and the filesystem are collaborators outside the
  engine: the generation call's result is a `GenOutcome` parameter, and
  filesystem writes are reified as a list of `FsOp` effects; `path.resolve`,
  `path.dirname` and base64 decoding are opaque functions bundled in
  `FsModel`.
* JavaScript's run-to-completion semantics make every code region between
  two `await`s atomic; mutation of a record held in a `Map` is modelled by
  returning the updated record/store.
-/

set_option maxRecDepth 100000

namespace NanoBanana

/-- The status union of `ImageJob` (src/index.ts line 58). -/
inductive JobStatus where
  | pending
  | processing
  | completed
  | failed
  deriving DecidableEq, Repr

/-- The string each status renders as (statuses are string literals in the
source). -/
def statusText : JobStatus → String
  | JobStatus.pending => "pending"
  | JobStatus.processing => "processing"
  | JobStatus.completed => "completed"
  | JobStatus.failed => "failed"

/-- `interface ImageJob` (src/index.ts lines 56-64). `result` holds the
base64 image data. -/
structure ImageJob where
  id : String
  status : JobStatus
  prompt : String
  result : Option String
  error : Option String
  createdAt : Nat
  completedAt : Option Nat
  deriving DecidableEq, Repr

/-- The `jobs` Map (src/index.ts line 66), as a partial function. -/
abbrev JobStore := String → Option ImageJob

def emptyJobStore : JobStore := fun _ => none

/-- `jobs.set(id, j)`. -/
def storeSet (s : JobStore) (jobId : String) (j : ImageJob) : JobStore :=
  fun k => if k = jobId then some j else s k

/-- `generateImage` (src/index.ts lines 157-204), synchronous prefix.
The job id from `generateJobId` and the `new Date()` timestamp are the
`jobId`/`now` parameters.  The function inserts the pending job record and
returns the id; the fire-and-forget async block `(async () => {...})()`
executes synchronously up to its first `await`, so the assignment
`jobs.get(jobId)!.status = "processing"` (line 171) also happens before
`generateImage` returns.  Everything after that `await` is `resolveJob`.
`aspectRatio`/`model` are forwarded to the external generation call only
and are not recorded on the job. -/
def generateImage (jobId : String) (now : Nat) (s : JobStore)
    (prompt aspectRatio model : String) : String × JobStore :=
  let s1 := storeSet s jobId
    { id := jobId, status := JobStatus.pending, prompt := prompt,
      result := none, error := none, createdAt := now, completedAt := none }
  let s2 := match s1 jobId with
    | some job => storeSet s1 jobId { job with status := JobStatus.processing }
    | none => s1
  (jobId, s2)

/-- The outcome of the external `genAI.models.generateContent` call as the
async block observes it (src/index.ts lines 173-194): an image part with
inline data, a response without one (which raises
`"No image data in response"`), or a thrown error whose message is `msg`. -/
inductive GenOutcome where
  | success (data : String)
  | noImage
  | genError (msg : String)
  deriving DecidableEq, Repr

/-- The record update the continuation of `generateImage` performs on its
job (src/index.ts lines 187-199). -/
def outcomeUpdate (job : ImageJob) (outcome : GenOutcome) (now : Nat) : ImageJob :=
  match outcome with
  | GenOutcome.success data =>
      { job with status := JobStatus.completed, result := some data, completedAt := some now }
  | GenOutcome.noImage =>
      { job with status := JobStatus.failed,
                 error := some "No image data in response", completedAt := some now }
  | GenOutcome.genError msg =>
      { job with status := JobStatus.failed, error := some msg, completedAt := some now }

/-- The continuation of `generateImage` past its `await` (src/index.ts
lines 182-200): look the job up (`jobs.get(jobId)!`) and write the outcome
back.  A missing job would crash the detached task; jobs are never deleted,
so that path leaves the store unchanged here. -/
def resolveJob (s : JobStore) (jobId : String) (outcome : GenOutcome) (now : Nat) : JobStore :=
  match s jobId with
  | none => s
  | some job => storeSet s jobId (outcomeUpdate job outcome now)

/-- The `check_job_status` response object (src/index.ts lines 604-641).
Optional JSON fields are `Option`s; `hasResult` is the flag added for
completed jobs. -/
structure JobStatusResponse where
  jobId : String
  status : JobStatus
  prompt : String
  createdAt : Nat
  completedAt : Option Nat
  message : Option String
  hasResult : Bool
  error : Option String
  deriving DecidableEq, Repr

/-- The `check_job_status` handler (src/index.ts lines 604-641). -/
def checkJobStatus (s : JobStore) (jobId : String) : Except String JobStatusResponse :=
  match s jobId with
  | none => Except.error ("Job " ++ jobId ++ " not found")
  | some job =>
    if job.status = JobStatus.completed then
      Except.ok
        { jobId := job.id, status := job.status, prompt := job.prompt,
          createdAt := job.createdAt, completedAt := job.completedAt,
          message := some "Image generation completed. Use save_image to save the result.",
          hasResult := true, error := none }
    else if job.status = JobStatus.failed then
      Except.ok
        { jobId := job.id, status := job.status, prompt := job.prompt,
          createdAt := job.createdAt, completedAt := job.completedAt,
          message := none, hasResult := false, error := job.error }
    else
      Except.ok
        { jobId := job.id, status := job.status, prompt := job.prompt,
          createdAt := job.createdAt, completedAt := job.completedAt,
          message := some ("Image generation is " ++ statusText job.status
            ++ ". Please check again later."),
          hasResult := false, error := none }

/-- One atomic evolution step of the job store.  `submit` is one call of
`generateImage` with a fresh id (`generateJobId` collisions are assumed
away, as the spec's Identifier Generator contract does); `resolve` is the
resumption of one job's detached continuation.  That continuation runs
exactly once per job and is the only writer besides `generateImage`, and it
set the job to `processing` itself before suspending, so it always resumes
on a job whose status is `processing`. -/
inductive Step : JobStore → JobStore → Prop where
  | submit (s : JobStore) (jobId : String) (now : Nat) (prompt aspectRatio model : String)
      (hfresh : s jobId = none) :
      Step s (generateImage jobId now s prompt aspectRatio model).2
  | resolve (s : JobStore) (jobId : String) (outcome : GenOutcome) (now : Nat) (j : ImageJob)
      (hget : s jobId = some j) (hproc : j.status = JobStatus.processing) :
      Step s (resolveJob s jobId outcome now)

/-- The job-store states the running server can reach. -/
inductive Reachable : JobStore → Prop where
  | init : Reachable emptyJobStore
  | step {s s2 : JobStore} : Reachable s → Step s s2 → Reachable s2

/-- Per-job well-formedness: `result` present iff completed, `error`
present iff failed, `completedAt` stamped iff terminal. -/
def JobWF (j : ImageJob) : Prop :=
  (j.status = JobStatus.completed → j.result.isSome ∧ j.error = none ∧ j.completedAt.isSome)
  ∧ (j.status = JobStatus.failed → j.error.isSome ∧ j.result = none ∧ j.completedAt.isSome)
  ∧ ((j.status = JobStatus.pending ∨ j.status = JobStatus.processing) →
      j.result = none ∧ j.error = none ∧ j.completedAt = none)

def StoreWF (s : JobStore) : Prop := ∀ id j, s id = some j → JobWF j

/-- `interface BatchJob` (src/index.ts lines 69-75). -/
structure BatchJob where
  id : String
  jobIds : List String
  totalCount : Nat
  createdAt : Nat
  completedAt : Option Nat
  deriving DecidableEq, Repr

/-- The `batchJobs` Map (src/index.ts line 77), as a partial function. -/
abbrev BatchStore := String → Option BatchJob

def emptyBatchStore : BatchStore := fun _ => none

/-- `batchJobs.set(id, b)`. -/
def batchStoreSet (bs : BatchStore) (batchId : String) (b : BatchJob) : BatchStore :=
  fun k => if k = batchId then some b else bs k

/-- `prompt.substring(0, 50) + (prompt.length > 50 ? "..." : "")`
(src/index.ts line 296; UTF-16 units modelled as characters). -/
def truncatePrompt (p : String) : String :=
  p.take 50 ++ (if p.length > 50 then "..." else "")

/-- One entry of the `jobs` array `getBatchStatus` returns (src/index.ts
lines 288, 293-297). -/
structure JobDetail where
  jobId : String
  status : JobStatus
  prompt : String
  deriving DecidableEq, Repr

/-- The four counters and the details list the member loop of
`getBatchStatus` accumulates (src/index.ts lines 284-314). -/
structure BatchTally where
  completedCount : Nat
  failedCount : Nat
  pendingCount : Nat
  processingCount : Nat
  jobDetails : List JobDetail
  deriving DecidableEq, Repr

/-- The member loop of `getBatchStatus` (src/index.ts lines 290-314): for
each member id in order, a job found in the store contributes one detail
row and bumps the counter of its status; a missing id (`if (job)`) is
skipped. -/
def tallyJobs (jobStore : JobStore) : List String → BatchTally
  | [] => { completedCount := 0, failedCount := 0, pendingCount := 0,
            processingCount := 0, jobDetails := [] }
  | jobId :: rest =>
    let t := tallyJobs jobStore rest
    match jobStore jobId with
    | none => t
    | some job =>
      let d : JobDetail := { jobId := job.id, status := job.status,
                             prompt := truncatePrompt job.prompt }
      match job.status with
      | JobStatus.completed =>
          { t with completedCount := t.completedCount + 1, jobDetails := d :: t.jobDetails }
      | JobStatus.failed =>
          { t with failedCount := t.failedCount + 1, jobDetails := d :: t.jobDetails }
      | JobStatus.pending =>
          { t with pendingCount := t.pendingCount + 1, jobDetails := d :: t.jobDetails }
      | JobStatus.processing =>
          { t with processingCount := t.processingCount + 1, jobDetails := d :: t.jobDetails }

/-- The aggregate status union of `getBatchStatus` (src/index.ts line 269).
The source's `"partial"` is spelled `partialDone`. -/
inductive BatchStatus where
  | pending
  | processing
  | completed
  | partialDone
  | failed
  deriving DecidableEq, Repr

/-- The object `getBatchStatus` returns (src/index.ts lines 267-278,
338-349). -/
structure BatchStatusResult where
  batchId : String
  status : BatchStatus
  totalCount : Nat
  completedCount : Nat
  failedCount : Nat
  pendingCount : Nat
  processingCount : Nat
  jobs : List JobDetail
  createdAt : Nat
  completedAt : Option Nat
  deriving DecidableEq, Repr

/-- `getBatchStatus` (src/index.ts lines 267-350).  The source mutates the
batch record held in the `batchJobs` Map (`batch.completedAt = new Date()`,
line 330); that mutation is modelled by returning the updated record next
to the result. -/
def getBatchStatus (batches : BatchStore) (jobStore : JobStore) (batchId : String)
    (now : Nat) : Except String (BatchStatusResult × BatchJob) :=
  match batches batchId with
  | none => Except.error ("Batch " ++ batchId ++ " not found")
  | some batch =>
    let t := tallyJobs jobStore batch.jobIds
    if t.completedCount + t.failedCount = batch.totalCount then
      let status :=
        if t.failedCount = batch.totalCount then BatchStatus.failed
        else if t.failedCount > 0 then BatchStatus.partialDone
        else BatchStatus.completed
      let batch2 :=
        if batch.completedAt = none then { batch with completedAt := some now } else batch
      Except.ok
        ({ batchId := batch.id, status := status, totalCount := batch.totalCount,
           completedCount := t.completedCount, failedCount := t.failedCount,
           pendingCount := t.pendingCount, processingCount := t.processingCount,
           jobs := t.jobDetails, createdAt := batch.createdAt,
           completedAt := batch2.completedAt }, batch2)
    else
      let status :=
        if t.processingCount > 0 ∨ t.completedCount > 0 then BatchStatus.processing
        else BatchStatus.pending
      Except.ok
        ({ batchId := batch.id, status := status, totalCount := batch.totalCount,
           completedCount := t.completedCount, failedCount := t.failedCount,
           pendingCount := t.pendingCount, processingCount := t.processingCount,
           jobs := t.jobDetails, createdAt := batch.createdAt,
           completedAt := batch.completedAt }, batch)

/-- The precedence table of spec §4.5, written from the spec's words, to be
compared with the status `getBatchStatus` computes. -/
def specAggregateStatus (totalCount completedCount failedCount processingCount : Nat) :
    BatchStatus :=
  if completedCount + failedCount = totalCount then
    if failedCount = totalCount then BatchStatus.failed
    else if failedCount > 0 then BatchStatus.partialDone
    else BatchStatus.completed
  else if processingCount > 0 ∨ completedCount > 0 then BatchStatus.processing
  else BatchStatus.pending

/-- The opaque path/encoding collaborators of the Result Persister:
Node's `path.resolve`, `path.dirname`, and base64 decoding
(`Buffer.from(data, "base64")`). -/
structure FsModel where
  resolvePath : String → String
  dirnameOf : String → String
  decodeBase64 : String → List Nat

/-- A reified filesystem effect of the Result Persister:
`mkdir(dir, { recursive: true })` or `writeFile(path, buffer)`. -/
inductive FsOp where
  | mkdirRecursive (dir : String)
  | writeFileAt (path : String) (bytes : List Nat)
  deriving DecidableEq, Repr

/-- JavaScript `String.prototype.endsWith`, as structural recursion over
the character lists (Lean's own `String.endsWith` is defined by
well-founded recursion and concrete instances of it do not reduce). -/
def strEndsWith (s suffix : String) : Bool :=
  List.isSuffixOf suffix.data s.data

/-- The errors `saveImageToFile` throws (src/index.ts lines 210-226), one
constructor per `throw` site. -/
inductive SaveError where
  | notFound (jobId : String)
  | invalidState (jobId : String) (status : JobStatus)
  | noResultData (jobId : String)
  | validationError
  deriving DecidableEq, Repr

/-- `saveImageToFile` (src/index.ts lines 207-234).  A thrown error is
`Except.error`; on success the performed filesystem effects are returned in
order. -/
def saveImageToFile (fs : FsModel) (jobStore : JobStore) (jobId filePath : String) :
    Except SaveError (List FsOp) :=
  match jobStore jobId with
  | none => Except.error (SaveError.notFound jobId)
  | some job =>
    if job.status ≠ JobStatus.completed then
      Except.error (SaveError.invalidState jobId job.status)
    else
      match job.result with
      | none => Except.error (SaveError.noResultData jobId)
      | some data =>
        let absolutePath := fs.resolvePath filePath
        if ! strEndsWith absolutePath ".png" then
          Except.error SaveError.validationError
        else
          Except.ok [FsOp.mkdirRecursive (fs.dirnameOf absolutePath),
                     FsOp.writeFileAt absolutePath (fs.decodeBase64 data)]

structure SavedItem where
  jobId : String
  filePath : String
  deriving DecidableEq, Repr

/-- A failed batch member: the source stores the error message string; the
model stores the `SaveError` the message is rendered from. -/
structure FailedItem where
  jobId : String
  error : SaveError
  deriving DecidableEq, Repr

/-- Models Node `path.join(dir, name)` for a directory path with no
trailing separator. -/
def joinPath (dir name : String) : String := dir ++ "/" ++ name

/-- The member loop of `saveBatchImages` (src/index.ts lines 369-382),
with `i` the 0-based loop index; the filename uses `i + 1`. -/
def saveBatchLoop (fs : FsModel) (jobStore : JobStore) (absoluteDir filenamePrefix : String) :
    List String → Nat → List SavedItem × List FailedItem × List FsOp
  | [], _ => ([], [], [])
  | jobId :: rest, i =>
    let filePath := joinPath absoluteDir (filenamePrefix ++ "_" ++ toString (i + 1) ++ ".png")
    let r := saveBatchLoop fs jobStore absoluteDir filenamePrefix rest (i + 1)
    match saveImageToFile fs jobStore jobId filePath with
    | Except.ok fops => (⟨jobId, filePath⟩ :: r.1, r.2.1, fops ++ r.2.2)
    | Except.error e => (r.1, ⟨jobId, e⟩ :: r.2.1, r.2.2)

/-- `saveBatchImages` (src/index.ts lines 353-385). -/
def saveBatchImages (fs : FsModel) (batches : BatchStore) (jobStore : JobStore)
    (batchId directory filenamePrefix : String) :
    Except String (List SavedItem × List FailedItem × List FsOp) :=
  match batches batchId with
  | none => Except.error ("Batch " ++ batchId ++ " not found")
  | some batch =>
    let absoluteDir := fs.resolvePath directory
    let r := saveBatchLoop fs jobStore absoluteDir filenamePrefix batch.jobIds 0
    Except.ok (r.1, r.2.1, FsOp.mkdirRecursive absoluteDir :: r.2.2)

/-- The `success` flag of the `save_batch_images` tool response
(`result.saved.length > 0`, src/index.ts line 783). -/
def saveBatchImagesSuccess (saved : List SavedItem) : Bool :=
  decide (saved.length > 0)

/-- The aspect-ratio enum of the zod schemas (src/index.ts line 96). -/
def ASPECT_RATIOS : List String := ["1:1", "3:4", "4:3", "9:16", "16:9"]

/-- `AVAILABLE_MODELS` (src/index.ts lines 85-90). -/
def AVAILABLE_MODELS : List String :=
  ["gemini-2.5-flash-image", "gemini-2.5-flash-image-preview",
   "gemini-3-pro-image-preview", "gemini-2.0-flash-exp-image-generation"]

/-- One item of `BatchPromptSchema` (src/index.ts lines 117-127). -/
structure BatchPromptSpec where
  prompt : String
  aspectRatio : Option String
  model : Option String
  deriving DecidableEq, Repr

/-- The per-item checks of `BatchPromptSchema`: optional enum fields must
be members of their enums. -/
def validBatchPrompt (p : BatchPromptSpec) : Bool :=
  (match p.aspectRatio with
   | none => true
   | some a => ASPECT_RATIOS.contains a)
  && (match p.model with
      | none => true
      | some m => AVAILABLE_MODELS.contains m)

/-- `GenerateBatchImagesSchema.parse` (src/index.ts lines 129-139): the
prompts array is `.min(1).max(20)` and each item and default must pass its
enum check. -/
def validBatchRequest (prompts : List BatchPromptSpec)
    (defaultAspectRatio defaultModel : String) : Bool :=
  decide (1 ≤ prompts.length) && decide (prompts.length ≤ 20)
  && prompts.all validBatchPrompt
  && ASPECT_RATIOS.contains defaultAspectRatio
  && AVAILABLE_MODELS.contains defaultModel

/-- The job-creation loop of `generateBatchImages` (src/index.ts lines
248-253): one `generateImage` call per prompt in input order, with per-item
overrides falling back to the batch defaults (`||` on validated non-empty
enum strings is `Option.getD`).  `jobIdAt i` is the id `generateJobId`
produces for the i-th call. -/
def generateBatchJobs (jobIdAt : Nat → String) (now : Nat)
    (defaultAspectRatio defaultModel : String) :
    JobStore → Nat → List BatchPromptSpec → JobStore × List String
  | s, _, [] => (s, [])
  | s, i, p :: rest =>
    let aspectRatio := p.aspectRatio.getD defaultAspectRatio
    let model := p.model.getD defaultModel
    let r := generateImage (jobIdAt i) now s p.prompt aspectRatio model
    let r2 := generateBatchJobs jobIdAt now defaultAspectRatio defaultModel r.2 (i + 1) rest
    (r2.1, r.1 :: r2.2)

/-- `generateBatchImages` (src/index.ts lines 239-264): create and dispatch
all jobs, then create the batch record listing them in input order. -/
def generateBatchImages (jobIdAt : Nat → String) (batchId : String) (now : Nat)
    (jobStore : JobStore) (batches : BatchStore)
    (prompts : List BatchPromptSpec) (defaultAspectRatio defaultModel : String) :
    (String × List String) × JobStore × BatchStore :=
  let r := generateBatchJobs jobIdAt now defaultAspectRatio defaultModel jobStore 0 prompts
  let batch : BatchJob := { id := batchId, jobIds := r.2, totalCount := prompts.length,
                            createdAt := now, completedAt := none }
  ((batchId, r.2), r.1, batchStoreSet batches batchId batch)

/-- The `generate_batch_images` tool handler (src/index.ts lines 691-723):
`GenerateBatchImagesSchema.parse` runs first and throws on invalid input,
before `generateBatchImages` creates any job; the stores are returned
alongside the response so the no-mutation-on-rejection behavior is
visible. -/
def generateBatchImagesHandler (jobIdAt : Nat → String) (batchId : String) (now : Nat)
    (jobStore : JobStore) (batches : BatchStore)
    (prompts : List BatchPromptSpec) (defaultAspectRatio defaultModel : String) :
    Except String (String × List String) × JobStore × BatchStore :=
  if validBatchRequest prompts defaultAspectRatio defaultModel then
    let r := generateBatchImages jobIdAt batchId now jobStore batches prompts
      defaultAspectRatio defaultModel
    (Except.ok r.1, r.2.1, r.2.2)
  else
    (Except.error "Invalid arguments", jobStore, batches)

/-- Position of a status along the lifecycle chain
pending → processing → {completed, failed}. -/
def statusRank : JobStatus → Nat
  | JobStatus.pending => 0
  | JobStatus.processing => 1
  | JobStatus.completed => 2
  | JobStatus.failed => 2

/-- Terminal states (spec glossary): completed or failed. -/
def isTerminal : JobStatus → Bool
  | JobStatus.completed => true
  | JobStatus.failed => true
  | JobStatus.pending => false
  | JobStatus.processing => false

/-- The legal edges of the job state machine (spec §4.2). -/
def legalEdge (a b : JobStatus) : Prop :=
  (a = JobStatus.pending ∧ b = JobStatus.processing)
  ∨ (a = JobStatus.processing ∧ b = JobStatus.completed)
  ∨ (a = JobStatus.processing ∧ b = JobStatus.failed)

/-- The destination path `saveBatchImages` computes for the member at
0-based position `k`: `<dir>/<filenamePrefix>_<k+1>.png`. -/
def pathAt (absoluteDir filenamePrefix : String) (k : Nat) : String :=
  joinPath absoluteDir (filenamePrefix ++ "_" ++ toString (k + 1) ++ ".png")

/-- Whether a `saveImageToFile` result is the defensive
`"has no result data"` error (src/index.ts lines 218-220). -/
def isNoResultError : Except SaveError (List FsOp) → Bool
  | Except.error (SaveError.noResultData _) => true
  | _ => false

/-- `true` for a member id the job store knows. -/
def memberPresent (jobStore : JobStore) (id : String) : Bool :=
  (jobStore id).isSome

/-- `true` when the store holds `id` with status `st`. -/
def memberHasStatus (jobStore : JobStore) (st : JobStatus) (id : String) : Bool :=
  match jobStore id with
  | some j => decide (j.status = st)
  | none => false

/-! Concrete fixtures used by the witness theorems. -/

/-- A filesystem model whose path functions are the identity and whose
decoder returns no bytes, for concrete evaluation. -/
def trivialFs : FsModel :=
  { resolvePath := fun p => p, dirnameOf := fun p => p, decodeBase64 := fun _ => [] }

def jobCompleted1 : ImageJob :=
  { id := "j1", status := JobStatus.completed, prompt := "p", result := some "AAAA",
    error := none, createdAt := 0, completedAt := some 1 }

def jobFailed2 : ImageJob :=
  { id := "j2", status := JobStatus.failed, prompt := "p", result := none,
    error := some "boom", createdAt := 0, completedAt := some 1 }

def jobFailed3 : ImageJob :=
  { id := "j3", status := JobStatus.failed, prompt := "p", result := none,
    error := some "boom", createdAt := 0, completedAt := some 1 }

def jobPending4 : ImageJob :=
  { id := "jp", status := JobStatus.pending, prompt := "p", result := none,
    error := none, createdAt := 0, completedAt := none }

def sampleStore : JobStore := fun k =>
  if k = "j1" then some jobCompleted1
  else if k = "j2" then some jobFailed2
  else if k = "j3" then some jobFailed3
  else if k = "jp" then some jobPending4
  else none

def sampleBatch : BatchJob :=
  { id := "b1", jobIds := ["j1", "j2", "j3"], totalCount := 3, createdAt := 0,
    completedAt := none }

def sampleBatches : BatchStore := fun k => if k = "b1" then some sampleBatch else none

/-- The aggregate result expected for `sampleBatch` over `sampleStore` at
time 7: one completed, two failed members, all done. -/
def sampleResult : BatchStatusResult :=
  { batchId := "b1", status := BatchStatus.partialDone, totalCount := 3,
    completedCount := 1, failedCount := 2, pendingCount := 0, processingCount := 0,
    jobs := [{ jobId := "j1", status := JobStatus.completed, prompt := "p" },
             { jobId := "j2", status := JobStatus.failed, prompt := "p" },
             { jobId := "j3", status := JobStatus.failed, prompt := "p" }],
    createdAt := 0, completedAt := some 7 }

def sampleBatchDone : BatchJob := { sampleBatch with completedAt := some 7 }

/-- A batch referencing a member id the job store does not know. -/
def orphanBatch : BatchJob :=
  { id := "b0", jobIds := ["ghost"], totalCount := 1, createdAt := 0, completedAt := none }

def orphanBatches : BatchStore := fun k => if k = "b0" then some orphanBatch else none

/-- The store after submitting job "j1" to the empty store. -/
def wSubmitStore : JobStore := (generateImage "j1" 0 emptyJobStore "p" "1:1" "m").2

/-- The record of job "j1" right after submission. -/
def wProcJob : ImageJob :=
  { id := "j1", status := JobStatus.processing, prompt := "p", result := none,
    error := none, createdAt := 0, completedAt := none }

/-- The store after the detached continuation of "j1" resolves with image
data at time 1. -/
def wDoneStore : JobStore := resolveJob wSubmitStore "j1" (GenOutcome.success "AAAA") 1

/-- The record of job "j1" after its continuation resolved. -/
def wDoneJob : ImageJob :=
  { id := "j1", status := JobStatus.completed, prompt := "p", result := some "AAAA",
    error := none, createdAt := 0, completedAt := some 1 }

/-- The saved/failed/effects lists `saveBatchImages` produces for
`sampleBatch` over `sampleStore` with directory "/out" and
filename prefix "image". -/
def wSaved : List SavedItem := [{ jobId := "j1", filePath := "/out/image_1.png" }]

def wFailed : List FailedItem :=
  [{ jobId := "j2", error := SaveError.invalidState "j2" JobStatus.failed },
   { jobId := "j3", error := SaveError.invalidState "j3" JobStatus.failed }]

def wOps : List FsOp :=
  [FsOp.mkdirRecursive "/out", FsOp.mkdirRecursive "/out/image_1.png",
   FsOp.writeFileAt "/out/image_1.png" []]

/-- A batch request of 21 items, above the zod `.max(20)` bound. -/
def bigPromptList : List BatchPromptSpec :=
  List.replicate 21 { prompt := "p", aspectRatio := none, model := none }

/-- A well-formed batch request of two items. -/
def smallPromptList : List BatchPromptSpec :=
  [{ prompt := "a", aspectRatio := none, model := none },
   { prompt := "b", aspectRatio := some "16:9", model := none }]

theorem storeSet_same (s : JobStore) (id : String) (j : ImageJob) :
    storeSet s id j id = some j := by
  simp [storeSet]

theorem storeSet_other (s : JobStore) {id k : String} (j : ImageJob) (h : k ≠ id) :
    storeSet s id j k = s k := by
  simp [storeSet, h]

theorem storeSet_storeSet (s : JobStore) (id : String) (j1 j2 : ImageJob) :
    storeSet (storeSet s id j1) id j2 = storeSet s id j2 := by
  funext k
  by_cases h : k = id <;> simp [storeSet, h]

theorem batchStoreSet_same (bs : BatchStore) (id : String) (b : BatchJob) :
    batchStoreSet bs id b id = some b := by
  simp [batchStoreSet]

/-- The store `generateImage` leaves behind: the submitted job is present
with status `processing` and no result, error or completion time. -/
theorem generateImage_snd (jobId : String) (now : Nat) (s : JobStore)
    (prompt aspectRatio model : String) :
    (generateImage jobId now s prompt aspectRatio model).2 =
      storeSet s jobId
        { id := jobId, status := JobStatus.processing, prompt := prompt,
          result := none, error := none, createdAt := now, completedAt := none } := by
  simp [generateImage, storeSet_same, storeSet_storeSet]

theorem jobWF_outcomeUpdate (job : ImageJob) (outcome : GenOutcome) (now : Nat)
    (hres : job.result = none) (herr : job.error = none) :
    JobWF (outcomeUpdate job outcome now) := by
  cases outcome <;>
    simp [outcomeUpdate, JobWF, hres, herr]

/-- Every reachable job store is well-formed. -/
theorem reachable_wf {s : JobStore} (h : Reachable s) : StoreWF s := by
  induction h with
  | init =>
    intro id j hj
    simp [emptyJobStore] at hj
  | step hr hstep ih =>
    cases hstep with
    | submit jobId now prompt aspectRatio model hfresh =>
      intro id j hj
      rw [generateImage_snd] at hj
      by_cases hid : id = jobId
      · subst hid
        rw [storeSet_same] at hj
        cases hj
        constructor
        · intro hc; cases hc
        constructor
        · intro hc; cases hc
        · intro _; exact ⟨rfl, rfl, rfl⟩
      · rw [storeSet_other _ _ hid] at hj
        exact ih id j hj
    | resolve jobId outcome now j0 hget hproc =>
      intro id j hj
      simp only [resolveJob, hget] at hj
      by_cases hid : id = jobId
      · subst hid
        rw [storeSet_same] at hj
        cases hj
        have hwf0 := ih _ j0 hget
        have hne := hwf0.2.2 (Or.inr hproc)
        exact jobWF_outcomeUpdate j0 outcome now hne.1 hne.2.1
      · rw [storeSet_other _ _ hid] at hj
        exact ih id j hj

/-- A well-formed job's optional fields are characterized by its status. -/
theorem jobWF_iff (j : ImageJob) (h : JobWF j) :
    (j.result.isSome = true ↔ j.status = JobStatus.completed)
    ∧ (j.error.isSome = true ↔ j.status = JobStatus.failed)
    ∧ ¬(j.result.isSome = true ∧ j.error.isSome = true)
    ∧ (j.completedAt.isSome = true ↔ isTerminal j.status = true) := by
  obtain ⟨hc, hf, hnt⟩ := h
  cases hst : j.status with
  | completed =>
    obtain ⟨h1, h2, h3⟩ := hc hst
    simp [h1, h2, h3, isTerminal]
  | failed =>
    obtain ⟨h1, h2, h3⟩ := hf hst
    simp [h1, h2, h3, isTerminal]
  | pending =>
    obtain ⟨h1, h2, h3⟩ := hnt (Or.inl hst)
    simp [h1, h2, h3, isTerminal]
  | processing =>
    obtain ⟨h1, h2, h3⟩ := hnt (Or.inr hst)
    simp [h1, h2, h3, isTerminal]

/-- The four tally counters count the members with the matching status, and
counters and detail rows together account exactly for the members present
in the store. -/
theorem tallyJobs_counts (jobStore : JobStore) (ids : List String) :
    (tallyJobs jobStore ids).completedCount
        = (ids.filter (memberHasStatus jobStore JobStatus.completed)).length
    ∧ (tallyJobs jobStore ids).failedCount
        = (ids.filter (memberHasStatus jobStore JobStatus.failed)).length
    ∧ (tallyJobs jobStore ids).pendingCount
        = (ids.filter (memberHasStatus jobStore JobStatus.pending)).length
    ∧ (tallyJobs jobStore ids).processingCount
        = (ids.filter (memberHasStatus jobStore JobStatus.processing)).length
    ∧ (tallyJobs jobStore ids).jobDetails.length
        = (ids.filter (memberPresent jobStore)).length := by
  induction ids with
  | nil => simp [tallyJobs]
  | cons id rest ih =>
    obtain ⟨ih1, ih2, ih3, ih4, ih5⟩ := ih
    cases hj : jobStore id with
    | none =>
      simp [tallyJobs, hj, List.filter, memberHasStatus, memberPresent, ih1, ih2, ih3, ih4, ih5]
    | some job =>
      cases hst : job.status <;>
        simp [tallyJobs, hj, hst, List.filter, memberHasStatus, memberPresent,
          ih1, ih2, ih3, ih4, ih5]

/-- The four tally counters together count exactly the member ids present
in the job store. -/
theorem tallyJobs_total (jobStore : JobStore) (ids : List String) :
    (tallyJobs jobStore ids).completedCount + (tallyJobs jobStore ids).failedCount
      + (tallyJobs jobStore ids).pendingCount + (tallyJobs jobStore ids).processingCount
      = (ids.filter (memberPresent jobStore)).length := by
  induction ids with
  | nil => simp [tallyJobs]
  | cons id rest ih =>
    cases hj : jobStore id with
    | none =>
      simpa [tallyJobs, hj, List.filter, memberPresent] using ih
    | some job =>
      cases hst : job.status <;>
        simp [tallyJobs, hj, hst, List.filter, memberPresent] <;> omega

/-- When a batch's `completedAt` is already set, `getBatchStatus` returns
its record unchanged, whatever the job store holds. -/
theorem getBatchStatus_done_fixed
    (batches : BatchStore) (jobStore : JobStore) (batchId : String) (now : Nat)
    (batch : BatchJob) (res : BatchStatusResult) (batch2 : BatchJob)
    (hb : batches batchId = some batch) (hdone : batch.completedAt.isSome = true)
    (h : getBatchStatus batches jobStore batchId now = Except.ok (res, batch2)) :
    batch2 = batch := by
  simp only [getBatchStatus, hb] at h
  by_cases hall : (tallyJobs jobStore batch.jobIds).completedCount
      + (tallyJobs jobStore batch.jobIds).failedCount = batch.totalCount
  · rw [if_pos hall] at h
    have hne : ¬ batch.completedAt = none := by
      cases hca : batch.completedAt with
      | none => rw [hca] at hdone; cases hdone
      | some t => simp
    rw [if_neg hne] at h
    injection h with h
    injection h with h1 h2
    exact h2.symm
  · rw [if_neg hall] at h
    injection h with h
    injection h with h1 h2
    exact h2.symm

/-- `saveBatchLoop` puts every member in exactly one of its two lists. -/
theorem saveBatchLoop_length (fs : FsModel) (jobStore : JobStore)
    (absoluteDir filenamePrefix : String) :
    ∀ (ids : List String) (i : Nat),
      (saveBatchLoop fs jobStore absoluteDir filenamePrefix ids i).1.length
        + (saveBatchLoop fs jobStore absoluteDir filenamePrefix ids i).2.1.length
        = ids.length := by
  intro ids
  induction ids with
  | nil => intro i; simp [saveBatchLoop]
  | cons id rest ih =>
    intro i
    simp only [saveBatchLoop]
    cases h : saveImageToFile fs jobStore id
        (joinPath absoluteDir (filenamePrefix ++ "_" ++ toString (i + 1) ++ ".png")) with
    | ok fops =>
      simp only [h, List.length_cons]
      have := ih (i + 1)
      omega
    | error e =>
      simp only [h, List.length_cons]
      have := ih (i + 1)
      omega

/-- The member at 0-based position `k` of the loop started at counter `i`
is attempted at path `pathAt _ _ (i + k)`, and its outcome lands in the
corresponding output list. -/
theorem saveBatchLoop_member (fs : FsModel) (jobStore : JobStore)
    (absoluteDir filenamePrefix : String) :
    ∀ (ids : List String) (i k : Nat) (hk : k < ids.length),
      (∀ fops,
        saveImageToFile fs jobStore (ids.get ⟨k, hk⟩)
            (pathAt absoluteDir filenamePrefix (i + k)) = Except.ok fops →
        ({ jobId := ids.get ⟨k, hk⟩,
           filePath := pathAt absoluteDir filenamePrefix (i + k) } : SavedItem)
          ∈ (saveBatchLoop fs jobStore absoluteDir filenamePrefix ids i).1)
      ∧ (∀ e,
        saveImageToFile fs jobStore (ids.get ⟨k, hk⟩)
            (pathAt absoluteDir filenamePrefix (i + k)) = Except.error e →
        ({ jobId := ids.get ⟨k, hk⟩, error := e } : FailedItem)
          ∈ (saveBatchLoop fs jobStore absoluteDir filenamePrefix ids i).2.1) := by
  intro ids
  induction ids with
  | nil => intro i k hk; exact absurd hk (Nat.not_lt_zero k)
  | cons id rest ih =>
    intro i k hk
    cases k with
    | zero =>
      constructor
      · intro fops hok
        simp only [saveBatchLoop]
        rw [show ((id :: rest).get ⟨0, hk⟩) = id from rfl] at hok
        rw [show pathAt absoluteDir filenamePrefix (i + 0)
            = joinPath absoluteDir (filenamePrefix ++ "_" ++ toString (i + 1) ++ ".png")
          from rfl] at hok
        rw [hok]
        exact List.mem_cons_self _ _
      · intro e herr
        simp only [saveBatchLoop]
        rw [show ((id :: rest).get ⟨0, hk⟩) = id from rfl] at herr
        rw [show pathAt absoluteDir filenamePrefix (i + 0)
            = joinPath absoluteDir (filenamePrefix ++ "_" ++ toString (i + 1) ++ ".png")
          from rfl] at herr
        rw [herr]
        exact List.mem_cons_self _ _
    | succ k =>
      have hk2 : k < rest.length := Nat.lt_of_succ_lt_succ hk
      have heq : i + (k + 1) = (i + 1) + k := by omega
      constructor
      · intro fops hok
        rw [heq] at hok
        simp only [saveBatchLoop]
        cases hhead : saveImageToFile fs jobStore id
            (joinPath absoluteDir (filenamePrefix ++ "_" ++ toString (i + 1) ++ ".png")) with
        | ok f0 =>
          rw [heq]
          exact List.mem_cons_of_mem _ ((ih (i + 1) k hk2).1 fops hok)
        | error e0 =>
          rw [heq]
          exact (ih (i + 1) k hk2).1 fops hok
      · intro e herr
        rw [heq] at herr
        simp only [saveBatchLoop]
        cases hhead : saveImageToFile fs jobStore id
            (joinPath absoluteDir (filenamePrefix ++ "_" ++ toString (i + 1) ++ ".png")) with
        | ok f0 =>
          exact (ih (i + 1) k hk2).2 e herr
        | error e0 =>
          exact List.mem_cons_of_mem _ ((ih (i + 1) k hk2).2 e herr)

/-- Every item the loop reports saved carries the path of its submission
position. -/
theorem saveBatchLoop_saved_shape (fs : FsModel) (jobStore : JobStore)
    (absoluteDir filenamePrefix : String) :
    ∀ (ids : List String) (i : Nat) (item : SavedItem),
      item ∈ (saveBatchLoop fs jobStore absoluteDir filenamePrefix ids i).1 →
      ∃ k, ∃ hk : k < ids.length,
        item.jobId = ids.get ⟨k, hk⟩
        ∧ item.filePath = pathAt absoluteDir filenamePrefix (i + k) := by
  intro ids
  induction ids with
  | nil => intro i item h; simp [saveBatchLoop] at h
  | cons id rest ih =>
    intro i item h
    simp only [saveBatchLoop] at h
    cases hhead : saveImageToFile fs jobStore id
        (joinPath absoluteDir (filenamePrefix ++ "_" ++ toString (i + 1) ++ ".png")) with
    | ok f0 =>
      rw [hhead] at h
      cases h with
      | head =>
        exact ⟨0, Nat.succ_pos _, rfl, rfl⟩
      | tail _ hmem =>
        obtain ⟨k, hk, h1, h2⟩ := ih (i + 1) item hmem
        refine ⟨k + 1, Nat.succ_lt_succ hk, h1, ?_⟩
        rw [h2]
        rw [show (i + 1) + k = i + (k + 1) from by omega]
    | error e0 =>
      rw [hhead] at h
      obtain ⟨k, hk, h1, h2⟩ := ih (i + 1) item h
      refine ⟨k + 1, Nat.succ_lt_succ hk, h1, ?_⟩
      rw [h2]
      rw [show (i + 1) + k = i + (k + 1) from by omega]

/-- The batch-submission loop creates exactly one job id per prompt. -/
theorem generateBatchJobs_length (jobIdAt : Nat → String) (now : Nat)
    (defaultAspectRatio defaultModel : String) :
    ∀ (prompts : List BatchPromptSpec) (s : JobStore) (i : Nat),
      (generateBatchJobs jobIdAt now defaultAspectRatio defaultModel s i prompts).2.length
        = prompts.length := by
  intro prompts
  induction prompts with
  | nil => intro s i; simp [generateBatchJobs]
  | cons p rest ih => intro s i; simp [generateBatchJobs, ih]

/-- C1: for every batch and every snapshot of its member jobs' statuses,
the aggregate status `getBatchStatus` reports follows the §4.5 precedence
table exactly (`specAggregateStatus`, written from the spec's words, over
the reported counts); in particular the status is `failed` only when the
failed count is the whole batch and no member completed, and a completed
member together with a failed member in an all-done batch forces
`partial`. -/
theorem C1_batch_status_precedence
    (batches : BatchStore) (jobStore : JobStore) (batchId : String) (now : Nat)
    (res : BatchStatusResult) (batch2 : BatchJob)
    (h : getBatchStatus batches jobStore batchId now = Except.ok (res, batch2)) :
    res.status =
      specAggregateStatus res.totalCount res.completedCount res.failedCount res.processingCount
    ∧ (res.status = BatchStatus.failed →
        res.failedCount = res.totalCount ∧ res.completedCount = 0)
    ∧ (res.completedCount + res.failedCount = res.totalCount →
        0 < res.completedCount → 0 < res.failedCount →
        res.status = BatchStatus.partialDone) := by
  cases hb : batches batchId with
  | none => simp [getBatchStatus, hb] at h
  | some batch =>
    simp only [getBatchStatus, hb] at h
    by_cases hall : (tallyJobs jobStore batch.jobIds).completedCount
        + (tallyJobs jobStore batch.jobIds).failedCount = batch.totalCount
    · rw [if_pos hall] at h
      injection h with h
      injection h with h1 h2
      subst h1
      refine ⟨?_, ?_, ?_⟩
      · dsimp only
        rw [specAggregateStatus, if_pos hall]
      · dsimp only
        intro hfs
        by_cases hf : (tallyJobs jobStore batch.jobIds).failedCount = batch.totalCount
        · exact ⟨hf, by omega⟩
        · rw [if_neg hf] at hfs
          by_cases hf0 : (tallyJobs jobStore batch.jobIds).failedCount > 0
          · rw [if_pos hf0] at hfs; cases hfs
          · rw [if_neg hf0] at hfs; cases hfs
      · dsimp only
        intro _ hc0 hf0
        have hf : ¬ (tallyJobs jobStore batch.jobIds).failedCount = batch.totalCount := by
          omega
        rw [if_neg hf, if_pos hf0]
    · rw [if_neg hall] at h
      injection h with h
      injection h with h1 h2
      subst h1
      refine ⟨?_, ?_, ?_⟩
      · dsimp only
        rw [specAggregateStatus, if_neg hall]
      · dsimp only
        intro hfs
        by_cases hp : (tallyJobs jobStore batch.jobIds).processingCount > 0
            ∨ (tallyJobs jobStore batch.jobIds).completedCount > 0
        · rw [if_pos hp] at hfs; cases hfs
        · rw [if_neg hp] at hfs; cases hfs
      · dsimp only
        intro hsum
        exact absurd hsum hall

/-- C1 witness: the batch of three members {completed, failed, failed} is
aggregated, all done, as `partial` and the table agrees. -/
theorem C1_batch_status_precedence_witness :
    getBatchStatus sampleBatches sampleStore "b1" 7 = Except.ok (sampleResult, sampleBatchDone)
    ∧ sampleResult.status = specAggregateStatus sampleResult.totalCount
        sampleResult.completedCount sampleResult.failedCount sampleResult.processingCount :=
  ⟨by rfl,
   (C1_batch_status_precedence sampleBatches sampleStore "b1" 7 sampleResult sampleBatchDone
      (by rfl)).1⟩

/-- C7 counterexample: a batch whose single member id is absent from the
Job Store is aggregated without error: `getBatchStatus` returns the
status `pending` with every count 0 (totalCount 1) and no detail row,
silently excluding the missing member, instead of failing. -/
theorem C7_counterexample :
    getBatchStatus orphanBatches emptyJobStore "b0" 3 =
      Except.ok
        ({ batchId := "b0", status := BatchStatus.pending, totalCount := 1,
           completedCount := 0, failedCount := 0, pendingCount := 0,
           processingCount := 0, jobs := [], createdAt := 0, completedAt := none },
         orphanBatch) := by
  rfl

/-- C7 (amended): for every batch whose `jobIds` contain ids absent from
the Job Store, `getBatchStatus` does not treat the absence as an error: it
still returns an aggregate result, whose four counters and whose detail
rows account exactly for the members present in the store, silently
excluding the missing ones from the tallies. -/
theorem C7_missing_members_silently_skipped
    (batches : BatchStore) (jobStore : JobStore) (batchId : String) (now : Nat)
    (batch : BatchJob) (hb : batches batchId = some batch) :
    ∃ res batch2,
      getBatchStatus batches jobStore batchId now = Except.ok (res, batch2)
      ∧ res.completedCount + res.failedCount + res.pendingCount + res.processingCount
          = (batch.jobIds.filter (memberPresent jobStore)).length
      ∧ res.jobs.length = (batch.jobIds.filter (memberPresent jobStore)).length := by
  simp only [getBatchStatus, hb]
  by_cases hall : (tallyJobs jobStore batch.jobIds).completedCount
      + (tallyJobs jobStore batch.jobIds).failedCount = batch.totalCount
  · rw [if_pos hall]
    refine ⟨_, _, rfl, ?_, ?_⟩
    · exact tallyJobs_total jobStore batch.jobIds
    · exact (tallyJobs_counts jobStore batch.jobIds).2.2.2.2
  · rw [if_neg hall]
    refine ⟨_, _, rfl, ?_, ?_⟩
    · exact tallyJobs_total jobStore batch.jobIds
    · exact (tallyJobs_counts jobStore batch.jobIds).2.2.2.2

/-- C7 amended-claim witness at the orphan batch. -/
theorem C7_missing_members_silently_skipped_witness :
    ∃ res batch2,
      getBatchStatus orphanBatches emptyJobStore "b0" 3 = Except.ok (res, batch2)
      ∧ res.completedCount + res.failedCount + res.pendingCount + res.processingCount
          = (orphanBatch.jobIds.filter (memberPresent emptyJobStore)).length
      ∧ res.jobs.length = (orphanBatch.jobIds.filter (memberPresent emptyJobStore)).length :=
  C7_missing_members_silently_skipped orphanBatches emptyJobStore "b0" 3 orphanBatch (by rfl)

/-- C8: a batch's `completedAt` is stamped by the first `getBatchStatus`
call that observes every member done (`now` of that call), is left alone
by calls that observe the batch not yet done, and once set is never
changed by any later call, over any job store: repeated aggregation is
idempotent on the batch record. -/
theorem C8_batch_completedAt_once
    (batches : BatchStore) (jobStore : JobStore) (batchId : String) (now : Nat)
    (batch : BatchJob) (res : BatchStatusResult) (batch2 : BatchJob)
    (hb : batches batchId = some batch)
    (h : getBatchStatus batches jobStore batchId now = Except.ok (res, batch2)) :
    (batch.completedAt.isSome = true → batch2 = batch)
    ∧ (batch.completedAt = none →
        res.completedCount + res.failedCount = res.totalCount →
        batch2.completedAt = some now)
    ∧ (batch.completedAt = none →
        res.completedCount + res.failedCount ≠ res.totalCount →
        batch2 = batch)
    ∧ (∀ jobStore2 now2 res2 batch3,
        batch2.completedAt.isSome = true →
        getBatchStatus (batchStoreSet batches batchId batch2) jobStore2 batchId now2 =
          Except.ok (res2, batch3) →
        batch3 = batch2) := by
  refine ⟨?_, ?_, ?_, ?_⟩
  · intro hdone
    exact getBatchStatus_done_fixed batches jobStore batchId now batch res batch2 hb hdone h
  · intro hca hsum
    simp only [getBatchStatus, hb] at h
    by_cases hall : (tallyJobs jobStore batch.jobIds).completedCount
        + (tallyJobs jobStore batch.jobIds).failedCount = batch.totalCount
    · rw [if_pos hall, if_pos hca] at h
      injection h with h
      injection h with h1 h2
      rw [← h2]
    · rw [if_neg hall] at h
      injection h with h
      injection h with h1 h2
      subst h1
      exact absurd hsum hall
  · intro hca hsum
    simp only [getBatchStatus, hb] at h
    by_cases hall : (tallyJobs jobStore batch.jobIds).completedCount
        + (tallyJobs jobStore batch.jobIds).failedCount = batch.totalCount
    · rw [if_pos hall] at h
      injection h with h
      injection h with h1 h2
      subst h1
      exact absurd hall hsum
    · rw [if_neg hall] at h
      injection h with h
      injection h with h1 h2
      exact h2.symm
  · intro jobStore2 now2 res2 batch3 hdone2 h2
    exact getBatchStatus_done_fixed (batchStoreSet batches batchId batch2) jobStore2 batchId
      now2 batch2 res2 batch3 (batchStoreSet_same batches batchId batch2) hdone2 h2

/-- C8 witness: the first aggregation of the sample batch (all members
terminal, `completedAt` unset) stamps `completedAt := 7` and later
aggregations leave the record unchanged. -/
theorem C8_batch_completedAt_once_witness :
    (sampleBatch.completedAt.isSome = true → sampleBatchDone = sampleBatch)
    ∧ (sampleBatch.completedAt = none →
        sampleResult.completedCount + sampleResult.failedCount = sampleResult.totalCount →
        sampleBatchDone.completedAt = some 7)
    ∧ (sampleBatch.completedAt = none →
        sampleResult.completedCount + sampleResult.failedCount ≠ sampleResult.totalCount →
        sampleBatchDone = sampleBatch)
    ∧ (∀ jobStore2 now2 res2 batch3,
        sampleBatchDone.completedAt.isSome = true →
        getBatchStatus (batchStoreSet sampleBatches "b1" sampleBatchDone) jobStore2 "b1" now2 =
          Except.ok (res2, batch3) →
        batch3 = sampleBatchDone) :=
  C8_batch_completedAt_once sampleBatches sampleStore "b1" 7 sampleBatch sampleResult
    sampleBatchDone (by rfl) (by rfl)

/-- C3: `saveImageToFile` fails with NotFound on an unknown id, with
InvalidState on a known job that is not completed (pending, processing or
failed alike), with ValidationError on a completed job whose resolved path
does not end in ".png", and succeeds otherwise, creating the parent
directory and writing the decoded payload.  A failing call returns
`Except.error`, which carries no `FsOp`, so no filesystem effect is
performed on any failure path. -/
theorem C3_saveOne_error_cases
    (fs : FsModel) (jobStore : JobStore) (jobId filePath : String) :
    (jobStore jobId = none →
      saveImageToFile fs jobStore jobId filePath = Except.error (SaveError.notFound jobId))
    ∧ (∀ job, jobStore jobId = some job → job.status ≠ JobStatus.completed →
        saveImageToFile fs jobStore jobId filePath =
          Except.error (SaveError.invalidState jobId job.status))
    ∧ (∀ job data, jobStore jobId = some job → job.status = JobStatus.completed →
        job.result = some data → strEndsWith (fs.resolvePath filePath) ".png" = false →
        saveImageToFile fs jobStore jobId filePath = Except.error SaveError.validationError)
    ∧ (∀ job data, jobStore jobId = some job → job.status = JobStatus.completed →
        job.result = some data → strEndsWith (fs.resolvePath filePath) ".png" = true →
        saveImageToFile fs jobStore jobId filePath =
          Except.ok [FsOp.mkdirRecursive (fs.dirnameOf (fs.resolvePath filePath)),
                     FsOp.writeFileAt (fs.resolvePath filePath) (fs.decodeBase64 data)]) := by
  refine ⟨?_, ?_, ?_, ?_⟩
  · intro h
    simp [saveImageToFile, h]
  · intro job hj hst
    simp [saveImageToFile, hj, hst]
  · intro job data hj hst hres hpng
    simp [saveImageToFile, hj, hst, hres, hpng]
  · intro job data hj hst hres hpng
    simp [saveImageToFile, hj, hst, hres, hpng]

/-- C3 witness: saving the pending job "jp" fails with InvalidState. -/
theorem C3_saveOne_error_cases_witness :
    saveImageToFile trivialFs sampleStore "jp" "out.png" =
      Except.error (SaveError.invalidState "jp" JobStatus.pending) :=
  (C3_saveOne_error_cases trivialFs sampleStore "jp" "out.png").2.1 jobPending4
    (by rfl) (by decide)

/-- C10: on every reachable job store, `saveImageToFile` never takes the
defensive `"has no result data"` branch: a completed job always holds its
result, so the branch is dead code for every job id and path. -/
theorem C10_noResult_branch_unreachable
    (fs : FsModel) (s : JobStore) (hr : Reachable s) (jobId filePath : String) :
    isNoResultError (saveImageToFile fs s jobId filePath) = false := by
  have hwf := reachable_wf hr
  cases hget : s jobId with
  | none => simp [saveImageToFile, hget, isNoResultError]
  | some job =>
    by_cases hst : job.status = JobStatus.completed
    · have hres := ((hwf jobId job hget).1 hst).1
      cases hdata : job.result with
      | none => rw [hdata] at hres; cases hres
      | some data =>
        by_cases hpng : strEndsWith (fs.resolvePath filePath) ".png" = true
        · simp [saveImageToFile, hget, hst, hdata, hpng, isNoResultError]
        · simp only [Bool.not_eq_true] at hpng
          simp [saveImageToFile, hget, hst, hdata, hpng, isNoResultError]
    · simp [saveImageToFile, hget, hst, isNoResultError]

/-- C10 witness at the initial (empty, reachable) store. -/
theorem C10_noResult_branch_unreachable_witness :
    isNoResultError (saveImageToFile trivialFs emptyJobStore "j" "x.png") = false :=
  C10_noResult_branch_unreachable trivialFs emptyJobStore Reachable.init "j" "x.png"

/-- C4: `saveBatchImages` on a known batch attempts every member
independently: each member ends in exactly one of the saved/failed lists
(a member's failure removes nothing else), the two lists' lengths sum to
`totalCount`, and the tool's `success` flag is true exactly when at least
one member saved. -/
theorem C4_saveBatch_independent_attempts
    (fs : FsModel) (batches : BatchStore) (jobStore : JobStore)
    (batchId directory filenamePrefix : String) (batch : BatchJob)
    (saved : List SavedItem) (failed : List FailedItem) (ops : List FsOp)
    (hb : batches batchId = some batch)
    (hlen : batch.jobIds.length = batch.totalCount)
    (h : saveBatchImages fs batches jobStore batchId directory filenamePrefix =
      Except.ok (saved, failed, ops)) :
    saved.length + failed.length = batch.totalCount
    ∧ (∀ k (hk : k < batch.jobIds.length),
        (∃ p, ({ jobId := batch.jobIds.get ⟨k, hk⟩, filePath := p } : SavedItem) ∈ saved)
        ∨ (∃ e, ({ jobId := batch.jobIds.get ⟨k, hk⟩, error := e } : FailedItem) ∈ failed))
    ∧ (saveBatchImagesSuccess saved = true ↔ 0 < saved.length) := by
  simp only [saveBatchImages, hb] at h
  injection h with h
  injection h with h1 h
  injection h with h2 h3
  subst h1
  subst h2
  refine ⟨?_, ?_, ?_⟩
  · rw [← hlen]
    exact saveBatchLoop_length fs jobStore (fs.resolvePath directory) filenamePrefix
      batch.jobIds 0
  · intro k hk
    cases hres : saveImageToFile fs jobStore (batch.jobIds.get ⟨k, hk⟩)
        (pathAt (fs.resolvePath directory) filenamePrefix (0 + k)) with
    | ok fops =>
      exact Or.inl ⟨_, (saveBatchLoop_member fs jobStore (fs.resolvePath directory)
        filenamePrefix batch.jobIds 0 k hk).1 fops hres⟩
    | error e =>
      exact Or.inr ⟨e, (saveBatchLoop_member fs jobStore (fs.resolvePath directory)
        filenamePrefix batch.jobIds 0 k hk).2 e hres⟩
  · simp [saveBatchImagesSuccess]

/-- C4 witness: saving the sample batch writes member 1 and reports
members 2 and 3 failed; one saved + two failed = three = totalCount. -/
theorem C4_saveBatch_independent_attempts_witness :
    saveBatchImages trivialFs sampleBatches sampleStore "b1" "/out" "image" =
      Except.ok (wSaved, wFailed, wOps)
    ∧ wSaved.length + wFailed.length = sampleBatch.totalCount :=
  ⟨by rfl,
   (C4_saveBatch_independent_attempts trivialFs sampleBatches sampleStore "b1" "/out" "image"
      sampleBatch wSaved wFailed wOps (by rfl) (by rfl) (by rfl)).1⟩

/-- C5: `saveBatchImages` iterates `batch.jobIds` in stored submission
order: the member at 0-based position k is attempted exactly at path
`<resolved dir>/<filenamePrefix>_<k+1>.png`, and every saved item's path is
the one of its submission position — the index never depends on the job
store's contents (completion state or order), only on the position in
`jobIds`. -/
theorem C5_saveBatch_filename_by_submission_order
    (fs : FsModel) (batches : BatchStore) (jobStore : JobStore)
    (batchId directory filenamePrefix : String) (batch : BatchJob)
    (saved : List SavedItem) (failed : List FailedItem) (ops : List FsOp)
    (hb : batches batchId = some batch)
    (h : saveBatchImages fs batches jobStore batchId directory filenamePrefix =
      Except.ok (saved, failed, ops)) :
    (∀ k (hk : k < batch.jobIds.length) fops,
      saveImageToFile fs jobStore (batch.jobIds.get ⟨k, hk⟩)
          (pathAt (fs.resolvePath directory) filenamePrefix k) = Except.ok fops →
      ({ jobId := batch.jobIds.get ⟨k, hk⟩,
         filePath := pathAt (fs.resolvePath directory) filenamePrefix k } : SavedItem)
        ∈ saved)
    ∧ (∀ item, item ∈ saved → ∃ k, ∃ hk : k < batch.jobIds.length,
        item.jobId = batch.jobIds.get ⟨k, hk⟩
        ∧ item.filePath = fs.resolvePath directory ++ "/"
            ++ (filenamePrefix ++ "_" ++ toString (k + 1) ++ ".png")) := by
  simp only [saveBatchImages, hb] at h
  injection h with h
  injection h with h1 h
  injection h with h2 h3
  subst h1
  subst h2
  constructor
  · intro k hk fops hok
    have h0 := (saveBatchLoop_member fs jobStore (fs.resolvePath directory)
      filenamePrefix batch.jobIds 0 k hk).1 fops
    rw [Nat.zero_add] at h0
    exact h0 hok
  · intro item hmem
    obtain ⟨k, hk, hid, hpath⟩ := saveBatchLoop_saved_shape fs jobStore
      (fs.resolvePath directory) filenamePrefix batch.jobIds 0 item hmem
    refine ⟨k, hk, hid, ?_⟩
    rw [hpath, Nat.zero_add]
    rfl

/-- C5 witness: in the sample batch, member 1 ("j1") is saved exactly at
"/out/image_1.png", the path of its submission position. -/
theorem C5_saveBatch_filename_by_submission_order_witness :
    ({ jobId := "j1", filePath := pathAt "/out" "image" 0 } : SavedItem) ∈ wSaved :=
  (C5_saveBatch_filename_by_submission_order trivialFs sampleBatches sampleStore "b1" "/out"
      "image" sampleBatch wSaved wFailed wOps (by rfl) (by rfl)).1 0 (by decide)
    [FsOp.mkdirRecursive "/out/image_1.png", FsOp.writeFileAt "/out/image_1.png" []]
    (by rfl)

/-- C6: a batch submission whose prompts list is empty or has more than 20
items is rejected by schema validation before any job is created — the
handler returns an error and both stores are exactly the ones it was given
— while a list of 1 to 20 well-formed items is accepted, producing one job
id per prompt. -/
theorem C6_batch_size_validation
    (jobIdAt : Nat → String) (batchId : String) (now : Nat)
    (jobStore : JobStore) (batches : BatchStore)
    (prompts : List BatchPromptSpec) (defaultAspectRatio defaultModel : String) :
    ((prompts.length = 0 ∨ 20 < prompts.length) →
      generateBatchImagesHandler jobIdAt batchId now jobStore batches prompts
          defaultAspectRatio defaultModel =
        (Except.error "Invalid arguments", jobStore, batches))
    ∧ (1 ≤ prompts.length → prompts.length ≤ 20 →
        prompts.all validBatchPrompt = true →
        ASPECT_RATIOS.contains defaultAspectRatio = true →
        AVAILABLE_MODELS.contains defaultModel = true →
        ∃ jobIds,
          (generateBatchImagesHandler jobIdAt batchId now jobStore batches prompts
              defaultAspectRatio defaultModel).1 = Except.ok (batchId, jobIds)
          ∧ jobIds.length = prompts.length) := by
  constructor
  · intro hbad
    have hv : validBatchRequest prompts defaultAspectRatio defaultModel = false := by
      rcases hbad with h0 | h20
      · simp [validBatchRequest, h0]
      · have hn : ¬ prompts.length ≤ 20 := by omega
        simp [validBatchRequest, hn]
    simp [generateBatchImagesHandler, hv]
  · intro h1 h20 hall hd1 hd2
    have hm1 : defaultAspectRatio ∈ ASPECT_RATIOS := by simpa using hd1
    have hm2 : defaultModel ∈ AVAILABLE_MODELS := by simpa using hd2
    have hv : validBatchRequest prompts defaultAspectRatio defaultModel = true := by
      simp [validBatchRequest, hall, hm1, hm2, h1, h20]
    simp only [generateBatchImagesHandler, hv, if_true, generateBatchImages]
    exact ⟨_, rfl,
      generateBatchJobs_length jobIdAt now defaultAspectRatio defaultModel prompts jobStore 0⟩

/-- C6 witness: a 21-item batch is rejected with the stores untouched. -/
theorem C6_batch_size_validation_witness :
    generateBatchImagesHandler (fun _ => "j") "b" 0 emptyJobStore emptyBatchStore
        bigPromptList "1:1" "gemini-2.5-flash-image" =
      (Except.error "Invalid arguments", emptyJobStore, emptyBatchStore) :=
  (C6_batch_size_validation (fun _ => "j") "b" 0 emptyJobStore emptyBatchStore
      bigPromptList "1:1" "gemini-2.5-flash-image").1 (Or.inr (by decide))

/-- C9: `generateImage` returns the job id without consuming any outcome
of the external generation call: at the moment it returns, the job is in
the store with a not-yet-terminal status (pending or processing — in fact
processing), no result, no error, and a status query at that point
observes that status without any result. -/
theorem C9_submit_returns_before_resolution
    (s : JobStore) (jobId : String) (now : Nat) (prompt aspectRatio model : String) :
    (generateImage jobId now s prompt aspectRatio model).1 = jobId
    ∧ (∃ j, (generateImage jobId now s prompt aspectRatio model).2 jobId = some j
        ∧ (j.status = JobStatus.pending ∨ j.status = JobStatus.processing)
        ∧ j.result = none ∧ j.error = none ∧ j.completedAt = none)
    ∧ (∃ r, checkJobStatus (generateImage jobId now s prompt aspectRatio model).2 jobId
          = Except.ok r
        ∧ (r.status = JobStatus.pending ∨ r.status = JobStatus.processing)
        ∧ r.hasResult = false ∧ r.error = none) := by
  refine ⟨rfl, ?_, ?_⟩
  · refine ⟨{ id := jobId, status := JobStatus.processing, prompt := prompt,
              result := none, error := none, createdAt := now, completedAt := none },
      ?_, Or.inr rfl, rfl, rfl, rfl⟩
    rw [generateImage_snd]
    exact storeSet_same s jobId _
  · refine ⟨{ jobId := jobId, status := JobStatus.processing, prompt := prompt,
              createdAt := now, completedAt := none,
              message := some ("Image generation is " ++ statusText JobStatus.processing
                ++ ". Please check again later."),
              hasResult := false, error := none },
      ?_, Or.inr rfl, rfl, rfl⟩
    rw [generateImage_snd]
    simp [checkJobStatus, storeSet_same]

/-- C2: along every step of every reachable execution, each job's status
only moves forward along pending → processing → {completed, failed} (any
change follows a legal edge and strictly increases the rank, so no state
is revisited), a job in a terminal state never mutates again, the result
is present iff the job completed, the error is present iff it failed,
never both, and `completedAt` is stamped exactly at the first transition
into a terminal state. -/
theorem C2_job_state_machine
    (s s2 : JobStore) (hr : Reachable s) (hstep : Step s s2)
    (id : String) (j j2 : ImageJob)
    (hj : s id = some j) (hj2 : s2 id = some j2) :
    statusRank j.status ≤ statusRank j2.status
    ∧ (isTerminal j.status = true → j2 = j)
    ∧ (j2 ≠ j → legalEdge j.status j2.status ∧ statusRank j.status < statusRank j2.status)
    ∧ (j2.result.isSome = true ↔ j2.status = JobStatus.completed)
    ∧ (j2.error.isSome = true ↔ j2.status = JobStatus.failed)
    ∧ ¬(j2.result.isSome = true ∧ j2.error.isSome = true)
    ∧ (isTerminal j.status = false → isTerminal j2.status = true →
        j.completedAt = none ∧ j2.completedAt.isSome = true) := by
  have hwf := reachable_wf hr
  have hwf2 := reachable_wf (Reachable.step hr hstep)
  have hWFj2 := jobWF_iff j2 (hwf2 id j2 hj2)
  cases hstep with
  | submit jobId now prompt aspectRatio model hfresh =>
    have hne : id ≠ jobId := by
      intro he
      rw [he, hfresh] at hj
      cases hj
    rw [generateImage_snd, storeSet_other _ _ hne, hj] at hj2
    injection hj2 with hj2
    subst hj2
    refine ⟨Nat.le_refl _, fun _ => rfl, fun hne2 => absurd rfl hne2, hWFj2.1, hWFj2.2.1,
      hWFj2.2.2.1, ?_⟩
    intro hnt ht
    rw [hnt] at ht
    cases ht
  | resolve jobId outcome now j0 hget hproc =>
    simp only [resolveJob, hget] at hj2
    by_cases hid : id = jobId
    · subst hid
      rw [hget] at hj
      injection hj with hj
      subst hj
      rw [storeSet_same] at hj2
      injection hj2 with hj2
      have hc0 := (hwf id j0 hget).2.2 (Or.inr hproc)
      subst hj2
      refine ⟨?_, ?_, ?_, hWFj2.1, hWFj2.2.1, hWFj2.2.2.1, ?_⟩
      · cases outcome <;> rw [hproc] <;> simp [outcomeUpdate, statusRank]
      · intro ht
        rw [hproc] at ht
        cases ht
      · intro _
        cases outcome with
        | success data =>
          constructor
          · exact Or.inr (Or.inl ⟨hproc, rfl⟩)
          · rw [hproc]; simp [outcomeUpdate, statusRank]
        | noImage =>
          constructor
          · exact Or.inr (Or.inr ⟨hproc, rfl⟩)
          · rw [hproc]; simp [outcomeUpdate, statusRank]
        | genError msg =>
          constructor
          · exact Or.inr (Or.inr ⟨hproc, rfl⟩)
          · rw [hproc]; simp [outcomeUpdate, statusRank]
      · intro _ _
        refine ⟨hc0.2.2, ?_⟩
        cases outcome <;> simp [outcomeUpdate]
    · rw [storeSet_other _ _ hid, hj] at hj2
      injection hj2 with hj2
      subst hj2
      refine ⟨Nat.le_refl _, fun _ => rfl, fun hne2 => absurd rfl hne2, hWFj2.1, hWFj2.2.1,
        hWFj2.2.2.1, ?_⟩
      intro hnt ht
      rw [hnt] at ht
      cases ht

/-- C2 witness: the step resolving job "j1" (submitted to the empty store)
with image data moves it from processing to completed with the result set,
the error unset and `completedAt` stamped. -/
theorem C2_job_state_machine_witness :
    statusRank wProcJob.status ≤ statusRank wDoneJob.status
    ∧ (isTerminal wProcJob.status = true → wDoneJob = wProcJob)
    ∧ (wDoneJob ≠ wProcJob →
        legalEdge wProcJob.status wDoneJob.status
        ∧ statusRank wProcJob.status < statusRank wDoneJob.status)
    ∧ (wDoneJob.result.isSome = true ↔ wDoneJob.status = JobStatus.completed)
    ∧ (wDoneJob.error.isSome = true ↔ wDoneJob.status = JobStatus.failed)
    ∧ ¬(wDoneJob.result.isSome = true ∧ wDoneJob.error.isSome = true)
    ∧ (isTerminal wProcJob.status = false → isTerminal wDoneJob.status = true →
        wProcJob.completedAt = none ∧ wDoneJob.completedAt.isSome = true) :=
  C2_job_state_machine wSubmitStore wDoneStore
    (Reachable.step Reachable.init (Step.submit emptyJobStore "j1" 0 "p" "1:1" "m" rfl))
    (Step.resolve wSubmitStore "j1" (GenOutcome.success "AAAA") 1 wProcJob (by rfl) rfl)
    "j1" wProcJob wDoneJob (by rfl) (by rfl)

end NanoBanana
